import Mathlib

/-!
GeneratedAssetSymbols.h

A verification development over the asset-symbol header of the AnalgesiaTool
iOS target.  The header is embedded as its text, line by line; a small reader
turns each line into a directive, and a preprocessor model expands the
directives into the list of constants the header declares.
-/

namespace AssetSymbols

/-! ## The header text -/

/-- The text of `GeneratedAssetSymbols.h`, one string per source line. -/
def GeneratedAssetSymbols : List String := [
  "#import <Foundation/Foundation.h>",
  "",
  "#if __has_attribute(swift_private)",
  "#define AC_SWIFT_PRIVATE __attribute__((swift_private))",
  "#else",
  "#define AC_SWIFT_PRIVATE",
  "#endif",
  "",
  "/// The resource bundle ID.",
  "static NSString * const ACBundleID AC_SWIFT_PRIVATE = @\"orgLifelineMed.AnalgesiaTool\";",
  "",
  "/// The \"AccentColor\" asset catalog color resource.",
  "static NSString * const ACColorNameAccentColor AC_SWIFT_PRIVATE = @\"AccentColor\";",
  "",
  "/// The \"Calculator_PixelArt\" asset catalog image resource.",
  "static NSString * const ACImageNameCalculatorPixelArt AC_SWIFT_PRIVATE = @\"Calculator_PixelArt\";",
  "",
  "/// The \"Morphine_Molecule\" asset catalog image resource.",
  "static NSString * const ACImageNameMorphineMolecule AC_SWIFT_PRIVATE = @\"Morphine_Molecule\";",
  "",
  "/// The \"alcohol_units\" asset catalog image resource.",
  "static NSString * const ACImageNameAlcoholUnits AC_SWIFT_PRIVATE = @\"alcohol_units\";",
  "",
  "/// The \"street_drug_units\" asset catalog image resource.",
  "static NSString * const ACImageNameStreetDrugUnits AC_SWIFT_PRIVATE = @\"street_drug_units\";",
  "",
  "#undef AC_SWIFT_PRIVATE"
]

/-! ## Character-list helpers (structural, so that they evaluate in proofs) -/

/-- Remove `p` from the front of `s`, when `s` starts with it. -/
def stripPrefix : List Char → List Char → Option (List Char)
  | [], s => some s
  | _ :: _, [] => none
  | p :: ps, c :: cs => if p = c then stripPrefix ps cs else none

/-- Remove `p` from the end of `s`, when `s` ends with it. -/
def stripSuffix (p s : List Char) : Option (List Char) :=
  (stripPrefix p.reverse s.reverse).map List.reverse

/-- Cut a character list at every occurrence of `sep`. -/
def splitAt (sep : Char) : List Char → List (List Char)
  | [] => [[]]
  | c :: cs =>
    if c = sep then [] :: splitAt sep cs
    else
      match splitAt sep cs with
      | [] => [[c]]
      | w :: ws => (c :: w) :: ws

/-- The characters before the first `sep` and those after it. -/
def cutAt (sep : Char) : List Char → List Char × List Char
  | [] => ([], [])
  | c :: cs =>
    if c = sep then ([], cs)
    else ((cutAt sep cs).1.cons c, (cutAt sep cs).2)

/-! ## Lines of the header -/

/-- What one line of the header is. -/
inductive Directive where
  | importFile (target : String)
  | ifHasAttribute (attr : String)
  | ifNotDefined (name : String)
  | define (name body : String)
  | elseBranch
  | endIf
  | undefine (name : String)
  | pragmaOnce
  | docComment (text : String)
  | declaration (identifier : String) (specifiers : List String) (value : String)
  | blank
  | other (text : String)
  deriving DecidableEq, Repr

/-- Read `IDENT SPEC ... = @"VALUE";`, the part of a constant declaration
after `static NSString * const `. -/
def readDeclaration (rest : List Char) : Option Directive :=
  match splitAt ' ' rest with
  | [] => none
  | ident :: more =>
    let specs := more.takeWhile (fun w => w ≠ ['='])
    match more.dropWhile (fun w => w ≠ ['=']) with
    | [] => none
    | _ :: lit =>
      match stripPrefix ['@', '"'] (List.intercalate [' '] lit) with
      | none => none
      | some body =>
        match stripSuffix ['"', ';'] body with
        | none => none
        | some v =>
          some (.declaration (String.mk ident) (specs.map String.mk) (String.mk v))

/-- Read one line of the header. -/
def readLine (line : String) : Directive :=
  let cs := line.data
  if cs = [] then .blank
  else if cs = "#else".data then .elseBranch
  else if cs = "#endif".data then .endIf
  else if cs = "#pragma once".data then .pragmaOnce
  else
    match stripPrefix "#import ".data cs with
    | some r => .importFile (String.mk r)
    | none =>
    match stripPrefix "#if __has_attribute(".data cs with
    | some r => .ifHasAttribute (String.mk (cutAt ')' r).1)
    | none =>
    match stripPrefix "#ifndef ".data cs with
    | some r => .ifNotDefined (String.mk r)
    | none =>
    match stripPrefix "#define ".data cs with
    | some r => .define (String.mk (cutAt ' ' r).1) (String.mk (cutAt ' ' r).2)
    | none =>
    match stripPrefix "#undef ".data cs with
    | some r => .undefine (String.mk r)
    | none =>
    match stripPrefix "/// ".data cs with
    | some r => .docComment (String.mk r)
    | none =>
    match stripPrefix "static NSString * const ".data cs with
    | some r => (readDeclaration r).getD (.other line)
    | none => .other line

/-! ## Preprocessing -/

/-- One constant of the header after preprocessing: the documentation comment
right above it, its identifier, the attributes its specifier macros expand to,
and the string literal assigned to it. -/
structure Declaration where
  doc : Option String
  identifier : String
  attributes : List String
  value : String
  deriving DecidableEq, Repr

/-- State of the preprocessor while it walks through a translation unit. -/
structure PPState where
  /-- Object-like macros currently defined, with their replacement text. -/
  macros : List (String × String) := []
  /-- Enclosing conditional blocks, innermost first: is the branch taken? -/
  conds : List Bool := []
  /-- Has a `#pragma once` of this header been seen? -/
  onceMarked : Bool := false
  /-- Files named by `#import`. -/
  imports : List String := []
  /-- Documentation comment waiting for its declaration. -/
  pendingDoc : Option String := none
  /-- Constants declared so far, in source order. -/
  decls : List Declaration := []
  deriving DecidableEq, Repr

/-- Lines are processed only when every enclosing conditional is taken. -/
def PPState.active (st : PPState) : Bool := st.conds.all id

/-- Replacement text of a specifier token: a defined macro expands to its
body, any other token stands for itself. -/
def expandToken (macros : List (String × String)) (tok : String) : String :=
  match macros.lookup tok with
  | some body => body
  | none => tok

/-- Expand the specifier tokens of a declaration; a macro with an empty body
leaves nothing behind. -/
def expandSpecifiers (macros : List (String × String)) (specs : List String) : List String :=
  (specs.map (expandToken macros)).filter (fun s => s ≠ "")

/-- Process one directive.  `hasAttribute` is the compiler's answer to
`__has_attribute`. -/
def step (hasAttribute : String → Bool) (st : PPState) : Directive → PPState
  | .ifHasAttribute a => { st with conds := hasAttribute a :: st.conds }
  | .ifNotDefined n => { st with conds := (st.macros.lookup n).isNone :: st.conds }
  | .elseBranch =>
    match st.conds with
    | [] => st
    | c :: cs => { st with conds := (!c) :: cs }
  | .endIf => { st with conds := st.conds.tail }
  | .importFile f => if st.active then { st with imports := st.imports ++ [f] } else st
  | .define n b =>
    if st.active then { st with macros := (n, b) :: st.macros.filter (fun m => m.1 ≠ n) } else st
  | .undefine n =>
    if st.active then { st with macros := st.macros.filter (fun m => m.1 ≠ n) } else st
  | .pragmaOnce => if st.active then { st with onceMarked := true } else st
  | .docComment t => if st.active then { st with pendingDoc := some t } else st
  | .declaration ident specs v =>
    if st.active then
      { st with
        pendingDoc := none
        decls := st.decls ++
          [{ doc := st.pendingDoc, identifier := ident,
             attributes := expandSpecifiers st.macros specs, value := v }] }
    else st
  | .blank => st
  | .other _ => st

/-- Process the text of the header once more in the current translation unit.
A header marked by `#pragma once` on an earlier pass is skipped. -/
def includeText (hasAttribute : String → Bool) (text : List String) (st : PPState) : PPState :=
  if st.onceMarked then st else (text.map readLine).foldl (step hasAttribute) st

/-- Process the text `n` times in one translation unit. -/
def includeTimes (hasAttribute : String → Bool) (text : List String) : Nat → PPState
  | 0 => {}
  | n + 1 => includeText hasAttribute text (includeTimes hasAttribute text n)

/-- The constants the header declares, for a given answer to `__has_attribute`. -/
def declarations (hasAttribute : String → Bool) : List Declaration :=
  (includeTimes hasAttribute GeneratedAssetSymbols 1).decls

/-- Does the text carry a guard of its own against duplicate inclusion: a
`#pragma once` line or an `#ifndef` line opening a guard block? -/
def hasIncludeGuard (text : List String) : Bool :=
  (text.map readLine).any fun d =>
    match d with
    | .pragmaOnce => true
    | .ifNotDefined _ => true
    | _ => false

/-! ## Documentation comments and resource kinds -/

/-- Kind of a resource, as the documentation comment of its constant names it. -/
inductive ResourceKind where
  | BundleID
  | Color
  | Image
  deriving DecidableEq, Repr

/-- Read a documentation comment of the header: the kind of resource it
announces and, for a catalog resource, the catalog name between the quotes. -/
def readDoc (doc : String) : Option (ResourceKind × Option String) :=
  if doc = "The resource bundle ID." then some (.BundleID, none)
  else
    match stripPrefix "The \"".data doc.data with
    | none => none
    | some r =>
      match stripSuffix "\" asset catalog color resource.".data r with
      | some n => some (.Color, some (String.mk n))
      | none =>
        match stripSuffix "\" asset catalog image resource.".data r with
        | some n => some (.Image, some (String.mk n))
        | none => none

/-- Kind of resource a declared constant stands for. -/
def Declaration.kind (d : Declaration) : Option ResourceKind :=
  (d.doc.bind readDoc).map Prod.fst

/-- Catalog name quoted in the documentation comment of a constant. -/
def Declaration.catalogName (d : Declaration) : Option String :=
  (d.doc.bind readDoc).bind Prod.snd

/-- The identifiers declared, in source order. -/
def identifiers (ds : List Declaration) : List String := ds.map Declaration.identifier

/-- The value strings assigned, in source order. -/
def values (ds : List Declaration) : List String := ds.map Declaration.value

/-- The (identifier, value) pairs declared, in source order. -/
def pairs (ds : List Declaration) : List (String × String) :=
  ds.map fun d => (d.identifier, d.value)

/-! ## Identifiers of the target language -/

/-- A C identifier: not empty, made of ASCII letters, digits and
underscores, and not starting with a digit. -/
def ValidIdentifier (s : String) : Prop :=
  s.data ≠ [] ∧
  (∀ c ∈ s.data, c.isAlpha = true ∨ c.isDigit = true ∨ c = '_') ∧
  (∀ c, s.data.head? = some c → c.isDigit = false)

/-! ## The naming rule, as the specification words it -/

/-- Library-wide namespace prefix. -/
def namespacePrefix : String := "AC"

/-- Kind-specific part of the prefix. -/
def kindPrefix : ResourceKind → String
  | .BundleID => "BundleID"
  | .Color => "ColorName"
  | .Image => "ImageName"

/-- Upper-case the first character of a segment, leave the others. -/
def capitalize : List Char → List Char
  | [] => []
  | c :: cs => c.toUpper :: cs

/-- Split at underscores, capitalise each segment, and concatenate the
segments without the underscores. -/
def camelCase (name : String) : String :=
  String.mk ((splitAt '_' name.data).map capitalize).flatten

/-- Modelled from the spec: `ResourceEntry` of the data model, the input
record of the Symbol Generator (whose code is not part of the sources). -/
structure ResourceEntry where
  rawName : String
  kind : ResourceKind
  deriving DecidableEq, Repr

/-- Modelled from the spec: `GeneratedSymbol` of the data model, the output
record of the Symbol Generator (whose code is not part of the sources). -/
structure GeneratedSymbol where
  identifier : String
  value : String
  deriving DecidableEq, Repr

/-- Modelled from the spec: the characters valid in a symbolic name; all
others are stripped by the Symbol Generator (whose code is not part of the
sources). -/
def isSymbolChar (c : Char) : Bool := c.isAlphanum || c = '_'

/-- Modelled from the spec: the identifier derived for an entry (step 1 of
the Symbol Generator, whose code is not part of the sources): characters
invalid in a symbolic name are stripped, the name is converted to the casing
convention observed in the header, and the kind-specific prefix and the
library-wide namespace prefix are prepended.  The bundle identifier has a
fixed name. -/
def deriveIdentifier (e : ResourceEntry) : String :=
  match e.kind with
  | .BundleID => namespacePrefix ++ kindPrefix .BundleID
  | k => namespacePrefix ++ kindPrefix k ++
      camelCase (String.mk (e.rawName.data.filter isSymbolChar))

/-- Modelled from the spec: the single error kind of the Symbol Generator
(whose code is not part of the sources), raised when two entries would get
the same identifier; it names both entries. -/
inductive GenerateError where
  | DuplicateSymbolError (first second : ResourceEntry)
  deriving DecidableEq, Repr

/-- Modelled from the spec: steps 2 and 3 of the Symbol Generator (its code
is not part of the sources).  `seen` holds the identifiers assigned so far
with the entries they came from; an entry whose identifier is already there
aborts generation with `DuplicateSymbolError` naming both entries; otherwise
the (identifier, rawName) pair is emitted in the position of its entry. -/
def generateFrom (seen : List (String × ResourceEntry)) :
    List ResourceEntry → Except GenerateError (List GeneratedSymbol)
  | [] => .ok []
  | e :: es =>
    match seen.lookup (deriveIdentifier e) with
    | some first => .error (.DuplicateSymbolError first e)
    | none =>
      match generateFrom ((deriveIdentifier e, e) :: seen) es with
      | .error err => .error err
      | .ok out => .ok ({ identifier := deriveIdentifier e, value := e.rawName } :: out)

/-- Modelled from the spec: the public contract
`generate(entries) -> sequence of GeneratedSymbol`, failing with
`DuplicateSymbolError` (the generator's code is not part of the sources). -/
def generate (entries : List ResourceEntry) : Except GenerateError (List GeneratedSymbol) :=
  generateFrom [] entries

/-- The catalog entry a declared constant of the header comes from: kind and
name are read off its documentation comment; the bundle identifier, which has
no catalog name, is its own raw name. -/
def Declaration.entry (d : Declaration) : Option ResourceEntry :=
  match d.doc.bind readDoc with
  | some (.BundleID, _) => some { rawName := d.value, kind := .BundleID }
  | some (k, some n) => some { rawName := n, kind := k }
  | _ => none

/-- The symbol a declared constant of the header amounts to. -/
def Declaration.symbol (d : Declaration) : GeneratedSymbol :=
  { identifier := d.identifier, value := d.value }

/-! ## Evaluating the header -/

/-- The markings a declaration carries when `AC_SWIFT_PRIVATE` is the
attribute (`true`) and when it is empty (`false`). -/
def attributeOf (marked : Bool) : List String :=
  if marked then ["__attribute__((swift_private))"] else []

/-- The six constants in source order, as one pass over the header declares them. -/
def headerTable (marked : Bool) : List Declaration :=
  [{ doc := some "The resource bundle ID.", identifier := "ACBundleID",
     attributes := attributeOf marked, value := "orgLifelineMed.AnalgesiaTool" },
   { doc := some "The \"AccentColor\" asset catalog color resource.",
     identifier := "ACColorNameAccentColor",
     attributes := attributeOf marked, value := "AccentColor" },
   { doc := some "The \"Calculator_PixelArt\" asset catalog image resource.",
     identifier := "ACImageNameCalculatorPixelArt",
     attributes := attributeOf marked, value := "Calculator_PixelArt" },
   { doc := some "The \"Morphine_Molecule\" asset catalog image resource.",
     identifier := "ACImageNameMorphineMolecule",
     attributes := attributeOf marked, value := "Morphine_Molecule" },
   { doc := some "The \"alcohol_units\" asset catalog image resource.",
     identifier := "ACImageNameAlcoholUnits",
     attributes := attributeOf marked, value := "alcohol_units" },
   { doc := some "The \"street_drug_units\" asset catalog image resource.",
     identifier := "ACImageNameStreetDrugUnits",
     attributes := attributeOf marked, value := "street_drug_units" }]

/-- The lines of the header, read one by one. -/
theorem readLine_header :
    GeneratedAssetSymbols.map readLine =
      [.importFile "<Foundation/Foundation.h>", .blank,
       .ifHasAttribute "swift_private",
       .define "AC_SWIFT_PRIVATE" "__attribute__((swift_private))",
       .elseBranch, .define "AC_SWIFT_PRIVATE" "", .endIf, .blank,
       .docComment "The resource bundle ID.",
       .declaration "ACBundleID" ["AC_SWIFT_PRIVATE"] "orgLifelineMed.AnalgesiaTool",
       .blank,
       .docComment "The \"AccentColor\" asset catalog color resource.",
       .declaration "ACColorNameAccentColor" ["AC_SWIFT_PRIVATE"] "AccentColor",
       .blank,
       .docComment "The \"Calculator_PixelArt\" asset catalog image resource.",
       .declaration "ACImageNameCalculatorPixelArt" ["AC_SWIFT_PRIVATE"] "Calculator_PixelArt",
       .blank,
       .docComment "The \"Morphine_Molecule\" asset catalog image resource.",
       .declaration "ACImageNameMorphineMolecule" ["AC_SWIFT_PRIVATE"] "Morphine_Molecule",
       .blank,
       .docComment "The \"alcohol_units\" asset catalog image resource.",
       .declaration "ACImageNameAlcoholUnits" ["AC_SWIFT_PRIVATE"] "alcohol_units",
       .blank,
       .docComment "The \"street_drug_units\" asset catalog image resource.",
       .declaration "ACImageNameStreetDrugUnits" ["AC_SWIFT_PRIVATE"] "street_drug_units",
       .blank,
       .undefine "AC_SWIFT_PRIVATE"] := by
  decide

/-- One pass over the header from a state that is not inside a conditional
and not marked by `#pragma once`. -/
theorem includeText_header (f : String → Bool) (st : PPState)
    (hc : st.conds = []) (ho : st.onceMarked = false) :
    includeText f GeneratedAssetSymbols st =
      { st with
        macros := st.macros.filter (fun m => m.1 ≠ "AC_SWIFT_PRIVATE")
        imports := st.imports ++ ["<Foundation/Foundation.h>"]
        pendingDoc := none
        decls := st.decls ++ headerTable (f "swift_private") } := by
  obtain ⟨macros, conds, once, imports, pending, decls⟩ := st
  simp only at hc ho
  subst hc ho
  cases h : f "swift_private" <;>
    simp [includeText, readLine_header, step, PPState.active, h, expandSpecifiers,
      expandToken, List.lookup, headerTable, attributeOf, List.filter_filter]

/-- The constants a single pass declares are those of `headerTable`. -/
theorem declarations_eq (f : String → Bool) :
    declarations f = headerTable (f "swift_private") := by
  have h := includeText_header f {} rfl rfl
  simp only [declarations, includeTimes, h]
  simp

/-- Two passes over the header in one translation unit. -/
theorem includeTimes_two (f : String → Bool) :
    (includeTimes f GeneratedAssetSymbols 2).decls =
      headerTable (f "swift_private") ++ headerTable (f "swift_private") := by
  have h1 := includeText_header f {} rfl rfl
  simp only [includeTimes, h1]
  rw [includeText_header f _ rfl rfl]
  simp

/-- The preprocessor honours guards: were the header opened by
`#pragma once`, or wrapped in an `#ifndef` guard block, a second pass over
its text would declare nothing more. -/
theorem guarded_text_declared_once (f : String → Bool) :
    (includeTimes f ("#pragma once" :: GeneratedAssetSymbols) 2).decls =
      (includeTimes f ("#pragma once" :: GeneratedAssetSymbols) 1).decls ∧
    (includeTimes f (["#ifndef GENERATED_ASSET_SYMBOLS_H",
        "#define GENERATED_ASSET_SYMBOLS_H"] ++ GeneratedAssetSymbols ++ ["#endif"]) 2).decls =
      (includeTimes f (["#ifndef GENERATED_ASSET_SYMBOLS_H",
        "#define GENERATED_ASSET_SYMBOLS_H"] ++ GeneratedAssetSymbols ++ ["#endif"]) 1).decls := by
  have h1 : readLine "#pragma once" = .pragmaOnce := by decide
  have h2 : readLine "#ifndef GENERATED_ASSET_SYMBOLS_H" =
      .ifNotDefined "GENERATED_ASSET_SYMBOLS_H" := by decide
  have h3 : readLine "#define GENERATED_ASSET_SYMBOLS_H" =
      .define "GENERATED_ASSET_SYMBOLS_H" "" := by decide
  have h4 : readLine "#endif" = .endIf := by decide
  constructor
  · cases h : f "swift_private" <;>
      simp [includeTimes, includeText, readLine_header, h1, step, PPState.active, h]
  · cases h : f "swift_private" <;>
      simp [includeTimes, includeText, readLine_header, h2, h3, h4, step, PPState.active, h,
        List.lookup]

/-! ## The generator model -/

/-- Generation succeeds, with one symbol per entry in entry order, when the
identifiers of the entries are pairwise distinct and none was assigned before. -/
theorem generateFrom_ok (seen : List (String × ResourceEntry)) (es : List ResourceEntry)
    (hd : (es.map deriveIdentifier).Nodup)
    (hs : ∀ e ∈ es, ∀ p ∈ seen, deriveIdentifier e ≠ p.1) :
    generateFrom seen es =
      .ok (es.map fun e => { identifier := deriveIdentifier e, value := e.rawName }) := by
  induction es generalizing seen with
  | nil => rfl
  | cons e es ih =>
    have hnone : seen.lookup (deriveIdentifier e) = none := by
      rw [List.lookup_eq_none_iff]
      intro p hp
      simpa using hs e (List.mem_cons_self _ _) p hp
    rw [List.map_cons, List.nodup_cons] at hd
    have hrec := ih ((deriveIdentifier e, e) :: seen) hd.2 (by
      intro e' he' p hp
      rcases List.mem_cons.1 hp with rfl | hp
      · intro heq
        have heq' : deriveIdentifier e' = deriveIdentifier e := heq
        exact hd.1 (heq' ▸ List.mem_map_of_mem _ he')
      · exact hs e' (List.mem_cons_of_mem _ he') p hp)
    simp only [generateFrom, hnone, hrec, List.map_cons]

/-- Generation fails with `DuplicateSymbolError`, naming two entries with the
same identifier, when two entries collide or one collides with an identifier
assigned before. -/
theorem generateFrom_error (seen : List (String × ResourceEntry)) (es : List ResourceEntry)
    (hinv : ∀ p ∈ seen, deriveIdentifier p.2 = p.1)
    (h : ¬ (es.map deriveIdentifier).Nodup ∨
      ∃ e ∈ es, ∃ p ∈ seen, deriveIdentifier e = p.1) :
    ∃ a b, (a ∈ es ∨ a ∈ seen.map Prod.snd) ∧ b ∈ es ∧
      deriveIdentifier a = deriveIdentifier b ∧
      generateFrom seen es = .error (.DuplicateSymbolError a b) := by
  induction es generalizing seen with
  | nil => simp at h
  | cons e es ih =>
    cases hl : seen.lookup (deriveIdentifier e) with
    | some first =>
      obtain ⟨l₁, l₂, hseen, -⟩ := List.lookup_eq_some_iff.1 hl
      have hmem : (deriveIdentifier e, first) ∈ seen := by rw [hseen]; simp
      refine ⟨first, e, Or.inr (List.mem_map.2 ⟨_, hmem, rfl⟩), List.mem_cons_self _ _,
        hinv _ hmem, ?_⟩
      simp only [generateFrom, hl]
    | none =>
      have hfresh : ∀ p ∈ seen, deriveIdentifier e ≠ p.1 := by
        intro p hp
        simpa using List.lookup_eq_none_iff.1 hl p hp
      have h' : ¬ (es.map deriveIdentifier).Nodup ∨
          ∃ e' ∈ es, ∃ p ∈ (deriveIdentifier e, e) :: seen, deriveIdentifier e' = p.1 := by
        rcases h with h | ⟨e', he', p, hp, heq⟩
        · rw [List.map_cons, List.nodup_cons, not_and_or, not_not] at h
          rcases h with h | h
          · obtain ⟨e', he', heq⟩ := List.mem_map.1 h
            exact Or.inr ⟨e', he', _, List.mem_cons_self _ _, heq⟩
          · exact Or.inl h
        · rcases List.mem_cons.1 he' with rfl | he'
          · exact absurd heq (hfresh p hp)
          · exact Or.inr ⟨e', he', p, List.mem_cons_of_mem _ hp, heq⟩
      obtain ⟨a, b, ha, hb, hab, hgen⟩ := ih ((deriveIdentifier e, e) :: seen) (by
        intro p hp
        rcases List.mem_cons.1 hp with rfl | hp
        · rfl
        · exact hinv p hp) h'
      refine ⟨a, b, ?_, List.mem_cons_of_mem _ hb, hab, ?_⟩
      · rcases ha with ha | ha
        · exact Or.inl (List.mem_cons_of_mem _ ha)
        · rw [List.map_cons, List.mem_cons] at ha
          rcases ha with rfl | ha
          · exact Or.inl (List.mem_cons_self _ _)
          · exact Or.inr ha
      · simp only [generateFrom, hl, hgen]

/-- Two positions of a list holding the same identifier make the list of
identifiers repeat itself. -/
theorem not_nodup_of_collision (es : List ResourceEntry) (i j : Nat) (hij : i < j)
    (hj : j < es.length)
    (h : deriveIdentifier (es.get ⟨i, hij.trans hj⟩) = deriveIdentifier (es.get ⟨j, hj⟩)) :
    ¬ (es.map deriveIdentifier).Nodup := by
  intro hn
  have hi' : i < (es.map deriveIdentifier).length := by simpa using hij.trans hj
  have hj' : j < (es.map deriveIdentifier).length := by simpa using hj
  have := (List.Nodup.get_inj_iff hn (i := ⟨i, hi'⟩) (j := ⟨j, hj'⟩)).1 (by simpa using h)
  simp only [Fin.mk.injEq] at this
  omega

/-! ## The constants of the header -/

/-- C1: the six identifiers declared by the header are, in source order,
`ACBundleID`, `ACColorNameAccentColor`, `ACImageNameCalculatorPixelArt`,
`ACImageNameMorphineMolecule`, `ACImageNameAlcoholUnits` and
`ACImageNameStreetDrugUnits`; no identifier occurs at two positions; and the
constants whose values are "Calculator_PixelArt" and "Morphine_Molecule" have
different identifiers. -/
theorem identifiers_pairwise_distinct (f : String → Bool) :
    identifiers (declarations f) =
      ["ACBundleID", "ACColorNameAccentColor", "ACImageNameCalculatorPixelArt",
       "ACImageNameMorphineMolecule", "ACImageNameAlcoholUnits",
       "ACImageNameStreetDrugUnits"] ∧
    (identifiers (declarations f)).Nodup ∧
    ∃ a ∈ declarations f, ∃ b ∈ declarations f,
      a.value = "Calculator_PixelArt" ∧ b.value = "Morphine_Molecule" ∧
      a.identifier ≠ b.identifier := by
  rw [declarations_eq]
  cases f "swift_private" <;> decide

/-- C2: for every color and image constant of the header the string literal
assigned to it is exactly the catalog name quoted in its documentation
comment; these values are, in order, "AccentColor", "Calculator_PixelArt",
"Morphine_Molecule", "alcohol_units" and "street_drug_units"; and exactly one
constant is documented as the color "AccentColor", with value "AccentColor". -/
theorem values_equal_catalog_names (f : String → Bool) :
    (∀ d ∈ declarations f, d.kind = some .Color ∨ d.kind = some .Image →
      d.catalogName = some d.value) ∧
    values ((declarations f).filter
      (fun d => d.kind = some .Color ∨ d.kind = some .Image)) =
      ["AccentColor", "Calculator_PixelArt", "Morphine_Molecule", "alcohol_units",
       "street_drug_units"] ∧
    ∃ d, (declarations f).filter
        (fun d => d.kind = some .Color ∧ d.catalogName = some "AccentColor") = [d] ∧
      d.identifier = "ACColorNameAccentColor" ∧ d.value = "AccentColor" := by
  rw [declarations_eq]
  cases f "swift_private"
  · exact ⟨by decide, by decide, (headerTable false).get ⟨1, by decide⟩,
      by decide, by decide, by decide⟩
  · exact ⟨by decide, by decide, (headerTable true).get ⟨1, by decide⟩,
      by decide, by decide, by decide⟩

/-- The catalog name in the comment above `ACImageNameAlcoholUnits` is its value. -/
theorem values_equal_catalog_names_witness :
    Declaration.catalogName
      { doc := some "The \"alcohol_units\" asset catalog image resource.",
        identifier := "ACImageNameAlcoholUnits",
        attributes := ["__attribute__((swift_private))"],
        value := "alcohol_units" } = some "alcohol_units" :=
  (values_equal_catalog_names (fun _ => true)).1 _ (by decide) (by decide)

/-- C3: the header declares six constants and each identifier is a valid
symbolic name of the target language: not empty, made only of ASCII letters,
digits and underscores, and not starting with a digit. -/
theorem identifiers_valid (f : String → Bool) :
    (declarations f).length = 6 ∧
    ∀ d ∈ declarations f, ValidIdentifier d.identifier := by
  rw [declarations_eq]
  refine ⟨by simp [headerTable], ?_⟩
  intro d hd
  simp only [headerTable, List.mem_cons, List.mem_singleton, List.not_mem_nil, or_false] at hd
  rcases hd with h | h | h | h | h | h <;> subst h <;>
    dsimp only <;>
    refine ⟨by decide, by decide, ?_⟩ <;>
    intro c hc <;>
    simp only [List.head?, Option.some.injEq] at hc <;>
    subst hc <;> decide

/-- The identifier `ACBundleID` is a valid symbolic name. -/
theorem identifiers_valid_witness : ValidIdentifier "ACBundleID" :=
  (identifiers_valid (fun _ => false)).2
    { doc := some "The resource bundle ID.", identifier := "ACBundleID",
      attributes := [], value := "orgLifelineMed.AnalgesiaTool" } (by decide)

/-- C4: the kinds of the six constants are bundle ID, color and four images;
every identifier starts with the namespace prefix `AC`; the bundle-ID
constant is named exactly `ACBundleID`; a color constant starts with
`ACColorName` and an image constant with `ACImageName`; neither of these two
prefixes is a prefix of the other, and for every base name the color prefix
followed by it differs from the image prefix followed by it. -/
theorem identifiers_carry_prefixes (f : String → Bool) :
    (declarations f).map Declaration.kind =
      [some .BundleID, some .Color, some .Image, some .Image, some .Image, some .Image] ∧
    (∀ d ∈ declarations f, namespacePrefix.data <+: d.identifier.data) ∧
    (∀ d ∈ declarations f, d.kind = some .BundleID → d.identifier = "ACBundleID") ∧
    (∀ d ∈ declarations f, ∀ k, d.kind = some k →
      (namespacePrefix ++ kindPrefix k).data <+: d.identifier.data) ∧
    namespacePrefix = "AC" ∧
    namespacePrefix ++ kindPrefix .BundleID = "ACBundleID" ∧
    namespacePrefix ++ kindPrefix .Color = "ACColorName" ∧
    namespacePrefix ++ kindPrefix .Image = "ACImageName" ∧
    ¬ ((namespacePrefix ++ kindPrefix .Color).data <+: (namespacePrefix ++ kindPrefix .Image).data) ∧
    ¬ ((namespacePrefix ++ kindPrefix .Image).data <+: (namespacePrefix ++ kindPrefix .Color).data) ∧
    ∀ base : String,
      namespacePrefix ++ kindPrefix .Color ++ base ≠ namespacePrefix ++ kindPrefix .Image ++ base := by
  rw [declarations_eq]
  have hk : ∀ d ∈ headerTable (f "swift_private"), ∀ k, d.kind = some k →
      (namespacePrefix ++ kindPrefix k).data <+: d.identifier.data := by
    intro d hd k
    cases k <;> revert d <;> cases f "swift_private" <;> decide
  refine ⟨?_, ?_, ?_, hk, by decide, by decide, by decide, by decide, by decide, by decide, ?_⟩
  · cases f "swift_private" <;> decide
  · cases f "swift_private" <;> decide
  · cases f "swift_private" <;> decide
  · intro base h
    have h2 := congrArg String.data h
    simp only [String.data_append] at h2
    have h3 := List.append_cancel_right h2
    revert h3
    decide

/-- The identifier `ACColorNameAccentColor` starts with `ACColorName`. -/
theorem identifiers_carry_prefixes_witness :
    "ACColorName".data <+: "ACColorNameAccentColor".data :=
  (identifiers_carry_prefixes (fun _ => true)).2.2.2.1
    { doc := some "The \"AccentColor\" asset catalog color resource.",
      identifier := "ACColorNameAccentColor",
      attributes := ["__attribute__((swift_private))"],
      value := "AccentColor" } (by decide) .Color (by decide)

/-- C5: expanding the header where `__has_attribute(swift_private)` holds and
where it does not yields the same (identifier, value) pairs in the same
order; erasing the attributes from the first expansion gives the second one,
so the two differ in nothing else; with the attribute supported every one of
the six declarations carries `__attribute__((swift_private))`, and without it
none carries any marking. -/
theorem visibility_toggle_keeps_mapping (f g : String → Bool)
    (hf : f "swift_private" = true) (hg : g "swift_private" = false) :
    pairs (declarations f) = pairs (declarations g) ∧
    (declarations f).map (fun d => { d with attributes := [] }) = declarations g ∧
    (declarations f).length = 6 ∧ (declarations g).length = 6 ∧
    (∀ d ∈ declarations f, d.attributes = ["__attribute__((swift_private))"]) ∧
    (∀ d ∈ declarations g, d.attributes = []) := by
  rw [declarations_eq, declarations_eq, hf, hg]
  decide

/-- The two expansions, for a compiler knowing every attribute and one
knowing none, declare the same pairs. -/
theorem visibility_toggle_keeps_mapping_witness :
    pairs (declarations (fun _ => true)) = pairs (declarations (fun _ => false)) :=
  (visibility_toggle_keeps_mapping (fun _ => true) (fun _ => false) rfl rfl).1

/-- C7, as stated, fails: the header has neither an `#ifndef` guard nor a
`#pragma once`, and processing its text twice in one translation unit
declares `ACBundleID` twice. -/
theorem header_not_guarded :
    hasIncludeGuard GeneratedAssetSymbols = false ∧
    (identifiers (includeTimes (fun _ => true) GeneratedAssetSymbols 2).decls).count
      "ACBundleID" = 2 := by
  refine ⟨?_, ?_⟩
  · simp only [hasIncludeGuard, readLine_header]
    decide
  · rw [includeTimes_two]
    decide

/-- C7, amended: the header carries no include guard of its own; one pass
over its text declares six constants, each identifier once; a second pass in
the same translation unit declares all six again; and after each pass no
macro of the header is left defined, `AC_SWIFT_PRIVATE` being removed by the
closing `#undef`. -/
theorem header_inclusion (f : String → Bool) :
    hasIncludeGuard GeneratedAssetSymbols = false ∧
    (declarations f).length = 6 ∧
    (identifiers (declarations f)).Nodup ∧
    (includeTimes f GeneratedAssetSymbols 2).decls = declarations f ++ declarations f ∧
    (includeTimes f GeneratedAssetSymbols 1).macros = [] ∧
    (includeTimes f GeneratedAssetSymbols 2).macros = [] := by
  have h1 := includeText_header f {} rfl rfl
  refine ⟨?_, ?_, ?_, ?_, ?_, ?_⟩
  · simp only [hasIncludeGuard, readLine_header]
    decide
  · rw [declarations_eq]
    cases f "swift_private" <;> decide
  · rw [declarations_eq]
    cases f "swift_private" <;> decide
  · rw [includeTimes_two, declarations_eq]
  · simp only [includeTimes, h1]
    simp
  · simp only [includeTimes, h1]
    rw [includeText_header f _ rfl rfl]
    simp

/-- C9: the identifier of every color and image constant of the header is
the namespace prefix, the kind prefix and the camel-cased value: the value is
split at underscores, the first character of each segment is upper-cased, and
the segments are concatenated. -/
theorem identifiers_follow_naming_rule (f : String → Bool) :
    (∀ d ∈ declarations f, ∀ k, d.kind = some k → k ≠ .BundleID →
      d.identifier = namespacePrefix ++ kindPrefix k ++ camelCase d.value) ∧
    namespacePrefix ++ kindPrefix .Color = "ACColorName" ∧
    namespacePrefix ++ kindPrefix .Image = "ACImageName" ∧
    camelCase "alcohol_units" = "AlcoholUnits" ∧
    camelCase "Calculator_PixelArt" = "CalculatorPixelArt" ∧
    camelCase "street_drug_units" = "StreetDrugUnits" ∧
    camelCase "Morphine_Molecule" = "MorphineMolecule" ∧
    camelCase "AccentColor" = "AccentColor" := by
  rw [declarations_eq]
  refine ⟨?_, by decide, by decide, by decide, by decide, by decide, by decide, by decide⟩
  intro d hd k
  cases k <;> revert d <;> cases f "swift_private" <;> decide

/-- The identifier `ACImageNameStreetDrugUnits` is built from "street_drug_units". -/
theorem identifiers_follow_naming_rule_witness :
    "ACImageNameStreetDrugUnits" =
      namespacePrefix ++ kindPrefix .Image ++ camelCase "street_drug_units" :=
  (identifiers_follow_naming_rule (fun _ => false)).1
    { doc := some "The \"street_drug_units\" asset catalog image resource.",
      identifier := "ACImageNameStreetDrugUnits", attributes := [],
      value := "street_drug_units" } (by decide) .Image (by decide) (by decide)

/-- C10: the six value strings of the header are pairwise distinct, so two
declared constants with the same value are the same constant. -/
theorem values_pairwise_distinct (f : String → Bool) :
    (declarations f).length = 6 ∧
    (values (declarations f)).Nodup ∧
    ∀ a ∈ declarations f, ∀ b ∈ declarations f, a.value = b.value → a = b := by
  rw [declarations_eq]
  cases f "swift_private" <;> decide

/-- The constant of the header holding the value "AccentColor" is the one
declared second, `ACColorNameAccentColor`. -/
theorem values_pairwise_distinct_witness :
    (declarations (fun _ => false)).get ⟨1, by decide⟩ =
      { doc := some "The \"AccentColor\" asset catalog color resource.",
        identifier := "ACColorNameAccentColor", attributes := [], value := "AccentColor" } :=
  (values_pairwise_distinct (fun _ => false)).2.2
    ((declarations (fun _ => false)).get ⟨1, by decide⟩) (by decide)
    { doc := some "The \"AccentColor\" asset catalog color resource.",
      identifier := "ACColorNameAccentColor", attributes := [], value := "AccentColor" }
    (by decide) (by decide)

/-! ## The generator of the specification -/

/-- C6: when two entries at different positions of the input produce the
same identifier, `generate` fails with `DuplicateSymbolError` naming two
entries of the input with equal identifiers, and returns no symbols; the
input of two image entries named "Foo" is rejected in this way. -/
theorem generate_rejects_duplicates :
    (∀ (es : List ResourceEntry) (i j : Nat) (hij : i < j) (hj : j < es.length),
      deriveIdentifier (es.get ⟨i, hij.trans hj⟩) = deriveIdentifier (es.get ⟨j, hj⟩) →
      (∃ a ∈ es, ∃ b ∈ es, deriveIdentifier a = deriveIdentifier b ∧
        generate es = .error (.DuplicateSymbolError a b)) ∧
      ∀ syms, generate es ≠ .ok syms) ∧
    generate [{ rawName := "Foo", kind := .Image }, { rawName := "Foo", kind := .Image }] =
      .error (.DuplicateSymbolError { rawName := "Foo", kind := .Image }
        { rawName := "Foo", kind := .Image }) := by
  refine ⟨?_, rfl⟩
  intro es i j hij hj h
  obtain ⟨a, b, ha, hb, hab, hgen⟩ := generateFrom_error [] es (by simp)
    (Or.inl (not_nodup_of_collision es i j hij hj h))
  have ha' : a ∈ es := by simpa using ha
  refine ⟨⟨a, ha', b, hb, hab, hgen⟩, ?_⟩
  intro syms hok
  rw [generate, hgen] at hok
  cases hok

/-- An image "a_b" and an image "A_B" get the same identifier `ACImageNameAB`,
so the list holding both is rejected. -/
theorem generate_rejects_duplicates_witness :
    ∀ syms, generate [{ rawName := "a_b", kind := .Image },
      { rawName := "A_B", kind := .Image }] ≠ .ok syms :=
  (generate_rejects_duplicates.1
    [{ rawName := "a_b", kind := .Image }, { rawName := "A_B", kind := .Image }]
    0 1 (by decide) (by decide) (by decide)).2

/-- C8: on an input whose identifiers are pairwise distinct `generate`
succeeds and returns exactly one (identifier, rawName) pair per entry, in
the order of the entries, so that any two invocations on the same input give
the same result; applied to the entries read off the documentation comments
of the header it returns the (identifier, value) pairs of the header, in
source order. -/
theorem generate_deterministic_in_order :
    (∀ es : List ResourceEntry, (es.map deriveIdentifier).Nodup →
      generate es =
        .ok (es.map fun e => { identifier := deriveIdentifier e, value := e.rawName }) ∧
      ∀ r₁ r₂, generate es = r₁ → generate es = r₂ → r₁ = r₂) ∧
    ∀ f : String → Bool,
      generate ((declarations f).filterMap Declaration.entry) =
        .ok ((declarations f).map Declaration.symbol) := by
  refine ⟨?_, ?_⟩
  · intro es hd
    refine ⟨generateFrom_ok [] es hd (by simp), ?_⟩
    intro r₁ r₂ h₁ h₂
    rw [← h₁, ← h₂]
  · intro f
    rw [declarations_eq]
    cases f "swift_private" <;> rfl

/-- The two image entries of the scenario are generated in the order given. -/
theorem generate_deterministic_in_order_witness :
    generate [{ rawName := "Calculator_PixelArt", kind := .Image },
      { rawName := "Morphine_Molecule", kind := .Image }] =
      .ok [{ identifier := "ACImageNameCalculatorPixelArt", value := "Calculator_PixelArt" },
        { identifier := "ACImageNameMorphineMolecule", value := "Morphine_Molecule" }] :=
  (generate_deterministic_in_order.1
    [{ rawName := "Calculator_PixelArt", kind := .Image },
      { rawName := "Morphine_Molecule", kind := .Image }] (by decide)).1

end AssetSymbols
